/-
Verification of the Semantic Entropy File System (SEFS) incremental
reclustering-and-reorganization pipeline.

This file gives a shallow embedding of the core of the system:

  * the Record Store           (src/sefs/app/database.py, DatabaseManager)
  * the Placement Engine       (src/sefs/app/folder_manager.py, FolderManager)
  * the Naming Oracle adapter  (src/sefs/app/ai_namer.py, AINamer)
  * the Grouping Engine        (src/sefs/app/clustering_engine.py, ClusteringEngine)
  * the Orchestrator           (src/sefs/app/main.py, Worker)

Modelling conventions:

  * Filesystem paths are lists of components (`Path := List String`); the
    paths handed to the model are taken to be absolute and normalized, so
    `os.path.normpath` / `os.path.abspath` are the identity, `os.path.join`
    appends components, `os.path.dirname` is `List.dropLast`, and
    `os.path.basename` is the last component.
  * The SQLite `files` table is a list of `FileRecord` in rowid order.  The
    auto-increment `id` column is never consulted by any consumer and is not
    modelled.  Row tuple indices in the Python code map to named fields:
    row[1] = path, row[2] = hash, row[3] = embedding, row[4] = cluster_id,
    row[6] = content_sample.
  * Embedding blobs (`numpy.float32` vectors serialized with `tobytes`) are
    modelled as `List Int` of the vector entries; the concrete numeric values
    are opaque to every property proved here.  A blob of n entries occupies
    4 * n bytes, which is how the Python check `len(row[3]) > 2` is rendered.
  * External collaborators (SHA-256 hashing, text extraction, the embedding
    model, the Gemini naming API, the UMAP / HDBSCAN libraries, the clock and
    the ambient randomness) are parameters of the model (`Env`, `ClusterLib`).
  * Observable side effects are recorded in an `Action` trace: oracle
    invocations, record-store writes, and filesystem writes.  Pure logging
    (`print`, `log_signal.emit`) and the UI payload emitted over
    `update_graph_signal` are not modelled.
-/
import Mathlib

namespace SEFS

/-- A normalized absolute filesystem path, as a list of components. -/
abbrev Path := List String

/-- An embedding vector (`numpy` array contents). -/
abbrev Vec := List Int

/-! ## String helpers

Python string primitives (`lower`, `upper`, `strip`, slicing) are modelled
character-wise over the underlying character list; for the ASCII data handled
here this coincides with the Python semantics. -/

/-- Python `str.lower`. -/
def strToLower (s : String) : String := ⟨s.data.map Char.toLower⟩

/-- Python `str.upper`. -/
def strToUpper (s : String) : String := ⟨s.data.map Char.toUpper⟩

/-- Python slicing `s[:n]`. -/
def strTake (s : String) (n : Nat) : String := ⟨s.data.take n⟩

/-- Drop characters satisfying `p` from both ends of a string
(Python `str.strip`). -/
def stripPred (p : Char → Bool) (s : String) : String :=
  ⟨((s.data.dropWhile p).reverse.dropWhile p).reverse⟩

/-! ## os.path helpers -/

/-- `os.path.splitext` on a single filename component: split at the last dot,
unless every character in front of that dot is itself a dot. -/
def splitext (s : String) : String × String :=
  match s.data.reverse.findIdx? (fun c => c = '.') with
  | none => (s, "")
  | some r =>
    let d := s.data.length - 1 - r
    if (s.data.take d).any (fun c => c ≠ '.') then
      (⟨s.data.take d⟩, ⟨s.data.drop d⟩)
    else (s, "")

/-- The extension of a path, as the Worker computes it:
`os.path.splitext(path)[1].lower()`. -/
def extOf (p : Path) : String := strToLower (splitext (p.getLastD "")).2

/-! ## FolderManager._get_type_folder_name -/

/-- `FolderManager._get_type_folder_name`: maps an extension to its
high-level type folder. -/
def typeFolderName (extension : String) : String :=
  if extension = "" then "Misc_Files"
  else
    let ext := strToLower extension
    if ext = ".pdf" then "PDF_Documents"
    else if ext = ".txt" then "Text_Files"
    else if ext = ".doc" ∨ ext = ".docx" then "Word_Documents"
    else if ext = ".md" ∨ ext = ".log" then "Documentation"
    else if ext ∈ [".jpg", ".jpeg", ".png", ".gif", ".bmp"] then "Image_Files"
    else if ext ∈ [".mp3", ".wav", ".flac"] then "Audio_Files"
    else if ext ∈ [".mp4", ".mkv", ".avi", ".mov"] then "Video_Files"
    else if ext ∈ [".py", ".js", ".html", ".css", ".java", ".cpp", ".c", ".h", ".json", ".xml"]
      then "Source_Code"
    else if ext ∈ [".zip", ".rar", ".7z", ".tar", ".gz"] then "Archives"
    else strToUpper ⟨ext.data.dropWhile (fun c => c = '.')⟩ ++ "_Files"

/-! ## Record Store (DatabaseManager) -/

/-- One row of the `files` table (see the schema in
`DatabaseManager._create_tables`). -/
structure FileRecord where
  path : Path
  hash : String
  embedding : Option Vec
  cluster_id : Int
  last_modified : Nat
  content_sample : Option String
deriving DecidableEq, Repr

/-- `DatabaseManager.get_file`: point lookup by (normalized) path. -/
def get_file (db : List FileRecord) (p : Path) : Option FileRecord :=
  db.find? (fun r => r.path == p)

/-- `DatabaseManager.upsert_file`: `INSERT .. ON CONFLICT(file_path) DO UPDATE`
setting hash, embedding, last_modified and content_sample.  A conflicting row
keeps its rowid (list position) and its `cluster_id`; a fresh row is appended
with the schema default `cluster_id = -1`. -/
def upsert_file (db : List FileRecord) (p : Path) (h : String) (e : Option Vec)
    (lm : Nat) (cs : Option String) : List FileRecord :=
  if (db.find? (fun r => r.path == p)).isSome then
    db.map (fun r =>
      if r.path == p then
        { r with hash := h, embedding := e, last_modified := lm, content_sample := cs }
      else r)
  else db ++ [⟨p, h, e, -1, lm, cs⟩]

/-- `DatabaseManager.update_cluster`. -/
def update_cluster (db : List FileRecord) (p : Path) (c : Int) : List FileRecord :=
  db.map (fun r => if r.path == p then { r with cluster_id := c } else r)

/-- `DatabaseManager.remove_file`. -/
def remove_file (db : List FileRecord) (p : Path) : List FileRecord :=
  db.filter (fun r => !(r.path == p))

/-! ## Filesystem model -/

/-- The part of the filesystem state the Placement Engine touches: the set of
existing regular files and the set of existing directories, as lists of
normalized absolute paths. -/
structure FileSys where
  files : List Path
  dirs : List Path
deriving DecidableEq, Repr

/-- Well-formedness of a filesystem: the parent directory of every existing
file exists.  (True of any real filesystem.) -/
def fsWF (fs : FileSys) : Bool :=
  fs.files.all (fun f => fs.dirs.contains f.dropLast)

/-- `os.makedirs`: create a directory together with all missing ancestors. -/
def makedirs (fs : FileSys) (d : Path) : FileSys :=
  { fs with
    dirs := ((List.range (d.length + 1)).map (fun k => d.take k)).foldl
      (fun ds q => if ds.contains q then ds else ds ++ [q]) fs.dirs }

/-- `os.remove` (always succeeds in the model). -/
def fsRemove (fs : FileSys) (p : Path) : FileSys :=
  { fs with files := fs.files.filter (fun q => !(q == p)) }

/-- `shutil.move` of an existing source to a destination whose parent
directory exists (always succeeds in the model). -/
def fsMove (fs : FileSys) (src dst : Path) : FileSys :=
  { fs with files := (fs.files.filter (fun q => !(q == src))) ++ [dst] }

/-! ## Observable actions -/

/-- Observable side effects of one run of the pipeline, in execution order:
oracle invocations, Record Store writes, and filesystem writes. -/
inductive Action where
  /-- a Reclustering Pass (`Worker.recluster_and_update`) was entered -/
  | reclusterStarted : Action
  /-- `EmbeddingEngine.compute_file_hash` was invoked on this path -/
  | hashed (p : Path) : Action
  /-- `EmbeddingEngine.extract_text` was invoked on this path -/
  | extracted (p : Path) : Action
  /-- `EmbeddingEngine.generate_embedding` (the fingerprint oracle) was
  invoked for this path's content -/
  | embedded (p : Path) : Action
  /-- `DatabaseManager.upsert_file` wrote a record at this path -/
  | upserted (p : Path) : Action
  /-- `DatabaseManager.remove_file` deleted the record at this path -/
  | removedRec (p : Path) : Action
  /-- `DatabaseManager.update_cluster` set this path's cluster id -/
  | clusterSet (p : Path) (c : Int) : Action
  /-- `ClusteringEngine.perform_clustering` was invoked for this extension
  group with these vectors -/
  | clustered (ext : String) (vecs : List Vec) : Action
  /-- the external naming API was invoked for this cluster id -/
  | named (cid : Int) : Action
  /-- `os.makedirs` created this directory -/
  | dirCreated (d : Path) : Action
  /-- an existing file at the destination was replaced (`os.remove`) -/
  | replaced (p : Path) : Action
  /-- `shutil.move` relocated a file -/
  | moved (src dst : Path) : Action
deriving DecidableEq, Repr

/-! ## Placement Engine (FolderManager.move_file) -/

/-- `FolderManager.move_file`: move a file to
`root / cluster_folder / type_folder / filename`.  Returns the resulting path
(`none` when the source does not exist), the new filesystem state, and the
filesystem actions performed.  In the pure model `os.remove` always succeeds,
so the timestamp-rename collision fallback of the Python code is unreachable
and not modelled; likewise `shutil.move` succeeds since the source exists and
the target directory has been created. -/
def move_file (fs : FileSys) (file_path : Path) (folder_name : String)
    (root_path : Path) : Option Path × FileSys × List Action :=
  if !(fs.files.contains file_path) then (none, fs, [])
  else
    let ext := extOf file_path
    let cluster_folder := folder_name
    let type_folder := typeFolderName ext
    let target_dir := root_path ++ [cluster_folder, type_folder]
    let step1 : FileSys × List Action :=
      if fs.dirs.contains target_dir then (fs, [])
      else (makedirs fs target_dir, [Action.dirCreated target_dir])
    let fs1 := step1.1
    let acts1 := step1.2
    let filename := file_path.getLastD ""
    let destination_path := target_dir ++ [filename]
    if file_path = destination_path then (some file_path, fs1, acts1)
    else
      let step2 : FileSys × List Action :=
        if fs1.files.contains destination_path then
          (fsRemove fs1 destination_path, acts1 ++ [Action.replaced destination_path])
        else (fs1, acts1)
      (some destination_path, fsMove step2.1 file_path destination_path,
        step2.2 ++ [Action.moved file_path destination_path])

/-! ## Naming Oracle adapter (AINamer) -/

/-- The deterministic fallback name `f"Semantic_Cluster_{cluster_id}"`. -/
def semanticCluster (cid : Int) : String := "Semantic_Cluster_" ++ toString cid

/-- Python `str.capitalize`: first character uppercased, the rest lowercased. -/
def pyCapitalize (w : String) : String :=
  match w.data with
  | [] => ""
  | c :: rest => ⟨c.toUpper :: rest.map Char.toLower⟩

/-- `AINamer._sanitize_name`: clean up an AI-generated name.  The quote
characters stripped are the double quote (code 34), the apostrophe (code 39)
and the backquote (code 96). -/
def sanitize_name (s : String) : String :=
  let n1 := stripPred Char.isWhitespace s
  let n2 := stripPred (fun c => c = Char.ofNat 34) n1
  let n3 := stripPred (fun c => c = Char.ofNat 39) n2
  let n4 := stripPred (fun c => c = Char.ofNat 96) n3
  let n5 := (n4.replace "\n" " ").replace "\r" ""
  -- `if chr(10) in name` is dead after the replace above; kept for fidelity
  let n6 := if n5.contains '\n' then (n5.splitOn "\n").headD n5 else n5
  let n7 := (n6.replace " " "_").replace "-" "_"
  let n8 : String := ⟨n7.data.filter (fun c => c.isAlphanum ∨ c = '_')⟩
  let parts := (n8.splitOn "_").filter (fun p => p ≠ "")
  if parts = [] then ""
  else
    let n9 := String.intercalate "_" (parts.map pyCapitalize)
    if n9.length > 50 then String.intercalate "_" ((n9.splitOn "_").take 3) else n9

/-- Does a sample look like a file path (contains a slash of either kind)? -/
def isPathLike (s : String) : Bool :=
  s.data.contains (Char.ofNat 92) ∨ s.data.contains '/'

/-- The `valid_samples` filtering loop of `AINamer.generate_folder_name`:
keep at most the first 5 samples, each longer than 10 characters, that either
do not look like paths or are longer than 100 characters; truncate each kept
sample to 500 characters. -/
def validSamples (text_samples : List String) : List String :=
  (text_samples.take 5).foldl (fun acc sample =>
    if sample.length > 10 then
      if !(isPathLike sample) then acc ++ [strTake sample 500]
      else if sample.length > 100 then acc ++ [strTake sample 500]
      else acc
    else acc) []

/-- The AINamer's memoization cache.  The Python code keys the cache by
`hash(tuple(valid_samples))`; the model keys it by the sample list itself. -/
structure NamerState where
  cache : List (List String × String)
deriving DecidableEq, Repr

/-- `AINamer.generate_folder_name`.  The external Gemini call is the function
`api`; `api vs = none` models an empty response or an exception (including
rate-limit exhaustion after the bounded retry loop), in which case the
deterministic fallback is returned.  Emits `Action.named` exactly when the
external API is actually invoked. -/
def generate_folder_name (enabled : Bool) (api : List String → Option String)
    (st : NamerState) (text_samples : List String) (cluster_id : Int) :
    String × NamerState × List Action :=
  if !enabled then (semanticCluster cluster_id, st, [])
  else if cluster_id = -1 then ("Miscellaneous_Files", st, [])
  else if text_samples = [] then (semanticCluster cluster_id, st, [])
  else
    let vs := validSamples text_samples
    if vs = [] then (semanticCluster cluster_id, st, [])
    else
      match st.cache.find? (fun kv => kv.1 == vs) with
      | some kv => (kv.2, st, [])
      | none =>
        match api vs with
        | none => (semanticCluster cluster_id, st, [Action.named cluster_id])
        | some resp =>
          let name := sanitize_name resp
          if name.length > 2 ∧ name.length < 60 then
            (name, { st with cache := st.cache ++ [(vs, name)] },
              [Action.named cluster_id])
          else (semanticCluster cluster_id, st, [Action.named cluster_id])

/-! ## Grouping Engine (ClusteringEngine) -/

/-- Parameters the code passes to `umap.UMAP`. -/
structure UmapParams where
  n_neighbors : Nat
  n_components : Nat
  metric : String
  min_dist : Rat
  random_state : Option Nat
deriving DecidableEq

/-- Parameters the code passes to `hdbscan.HDBSCAN`. -/
structure HdbscanParams where
  min_cluster_size : Nat
  min_samples : Nat
  metric : String
  cluster_selection_method : String
deriving DecidableEq

/-- The external UMAP and HDBSCAN libraries.  `umapF` receives the effective
random seed as its second argument; HDBSCAN takes no seed and is a pure
function of its input. -/
structure ClusterLib where
  umapF : UmapParams → Nat → List Vec → List Vec
  hdbscanF : HdbscanParams → List Vec → List Int

/-- Run UMAP.  Per the library contract, UMAP is deterministic given a fixed
`random_state`; the ambient randomness `rng` is consumed only when
`random_state` is `None`. -/
def umapRun (lib : ClusterLib) (p : UmapParams) (rng : Nat) (X : List Vec) :
    List Vec :=
  match p.random_state with
  | some s => lib.umapF p s X
  | none => lib.umapF p rng X

/-- `ClusteringEngine.perform_clustering`: UMAP reduction (seeded with 42)
followed by HDBSCAN, with the small-N short-circuits of the code.  The
quality-metric block of the Python code only prints and is not modelled. -/
def perform_clustering (lib : ClusterLib) (rng : Nat) (embeddings : List Vec) :
    List Int :=
  if embeddings.length = 0 then []
  else
    let n_samples := embeddings.length
    if n_samples < 3 then List.replicate n_samples 0
    else
      let n_neighbors := min 15 (n_samples - 1)
      let n_components := min 5 (n_samples - 1)
      let reduced := umapRun lib
        ⟨n_neighbors, n_components, "cosine", 0, some 42⟩ rng embeddings
      let min_cluster_size := if n_samples < 10 then 2 else 3
      let min_samples := if n_samples < 10 then 1 else 2
      lib.hdbscanF ⟨min_cluster_size, min_samples, "euclidean", "eom"⟩ reduced

/-- `ClusteringEngine.reduce_dimensions`: 2-D projection for visualization.
In the pure model the UMAP call cannot raise, so the PCA fallback branch is
unreachable and not modelled. -/
def reduce_dimensions (lib : ClusterLib) (rng : Nat) (embeddings : List Vec) :
    List Vec :=
  if embeddings.length = 0 then []
  else if embeddings.length < 2 then List.replicate embeddings.length [0, 0]
  else
    let n_neighbors := min 15 (embeddings.length - 1)
    umapRun lib ⟨n_neighbors, 2, "cosine", 1/10, some 42⟩ rng embeddings

/-! ## Orchestrator (Worker) -/

/-- External collaborators and ambient inputs of one Orchestrator step:
content hashing, text extraction, the fingerprint oracle, the naming API, the
clock, the ambient randomness, and the naming-enabled flag
(`AINamer.enabled`). -/
structure Env where
  hashF : Path → Option String
  extractF : Path → Option String
  embedF : String → Option Vec
  api : List String → Option String
  now : Nat
  rng : Nat
  namingEnabled : Bool

/-- The mutable state an Orchestrator step acts on: the Record Store, the
filesystem, the AINamer cache, and the accumulated trace of observable
actions. -/
structure WState where
  db : List FileRecord
  fs : FileSys
  namer : NamerState
  trace : List Action
deriving DecidableEq, Repr

/-- `Worker.process_file` (the Processing Step, spec section 4.5): hash, look
up the record by path, short-circuit when the stored hash matches, otherwise
extract text, fingerprint, and upsert a record carrying the first 500
characters of the text as content sample. -/
def process_file (env : Env) (st : WState) (file_path : Path) : WState :=
  if !(st.fs.files.contains file_path) then st
  else
    match env.hashF file_path with
    | none => { st with trace := st.trace ++ [Action.hashed file_path] }
    | some file_hash =>
      let st1 := { st with trace := st.trace ++ [Action.hashed file_path] }
      let existing := get_file st1.db file_path
      -- `if existing and existing[2] == file_hash: return`
      if (match existing with
          | some r => r.hash == file_hash
          | none => false : Bool) then st1
      else
        match env.extractF file_path with
        | none => { st1 with trace := st1.trace ++ [Action.extracted file_path] }
        | some text =>
          let st2 := { st1 with trace := st1.trace ++ [Action.extracted file_path] }
          if text ≠ "" ∧ (stripPred Char.isWhitespace text).length > 10 then
            match env.embedF text with
            | some emb =>
              { st2 with
                db := upsert_file st2.db file_path file_hash (some emb) env.now
                  (some (strTake text 500)),
                trace := st2.trace ++ [Action.embedded file_path,
                  Action.upserted file_path] }
            | none => { st2 with trace := st2.trace ++ [Action.embedded file_path] }
          else st2

/-- The validity test `row[3] and len(row[3]) > 2` on an embedding blob:
present, and longer than 2 bytes (each vector entry is a 4-byte float32). -/
def validBlob : Option Vec → Bool
  | none => false
  | some v => decide (4 * v.length > 2)

/-- One step of building the `type_groups` dictionary: append the item to its
extension's group, creating the group at the end on first sight (Python dict
insertion order). -/
def addToGroups (gs : List (String × List (FileRecord × Vec))) (ext : String)
    (item : FileRecord × Vec) : List (String × List (FileRecord × Vec)) :=
  if (gs.find? (fun g => g.1 == ext)).isSome then
    gs.map (fun g => if g.1 == ext then (g.1, g.2 ++ [item]) else g)
  else gs ++ [(ext, [item])]

/-- The `type_groups` grouping loop of `Worker.recluster_and_update`: for each
row with a valid embedding blob, decode the vector (`np.frombuffer` is the
identity in the model) and add it under the row's extension. -/
def buildTypeGroups (rows : List FileRecord) :
    List (String × List (FileRecord × Vec)) :=
  rows.foldl (fun gs row =>
    match row.embedding with
    | some v => if 4 * v.length > 2 then addToGroups gs (extOf row.path) (row, v) else gs
    | none => gs) []

/-- The content-sample collection loop for one cluster id: samples of the rows
labelled with this cluster, skipping rows whose `content_sample` is NULL or
empty (Python truthiness of `row[6]`). -/
def samplesFor (labels : List Int) (rows : List FileRecord) (cid : Int) :
    List String :=
  (labels.zip rows).foldl (fun cs lr =>
    if lr.1 = cid then
      match lr.2.content_sample with
      | some s => if s ≠ "" then cs ++ [s] else cs
      | none => cs
    else cs) []

/-- `set(labels)` of the Python code.  A Python set of small ints iterates in
an unspecified order; the model fixes first-occurrence order. -/
def distinctLabels (labels : List Int) : List Int :=
  labels.foldl (fun acc x => if acc.contains x then acc else acc ++ [x]) []

/-- The per-cluster naming loop of one type group: build the
`cluster_names` association and thread the namer cache and the trace. -/
def nameClusters (env : Env) (labels : List Int) (rows : List FileRecord)
    (acc : List (Int × String) × WState) : List (Int × String) × WState :=
  (distinctLabels labels).foldl (fun acc cid =>
    let content_samples := samplesFor labels rows cid
    let r := generate_folder_name env.namingEnabled env.api acc.2.namer
      (content_samples.take 5) cid
    (acc.1 ++ [(cid, r.1)],
      { acc.2 with namer := r.2.1, trace := acc.2.trace ++ r.2.2 })) acc

/-- The per-file placement loop of one type group (`for i, row in
enumerate(rows_for_type)`): set the cluster id in the store, move the file,
and on an actual relocation re-key the record to the new path (remove + upsert
with the old row's hash/embedding/sample, then re-set the cluster id).  The
library contract guarantees one label per input row, so the pairing is a
`zip`.  The `rows_for_type[i]` update of the Python code only feeds the UI
payload and is not modelled. -/
def placeRows (env : Env) (root_path : Path) (cluster_names : List (Int × String))
    (labels : List Int) (rows : List FileRecord) (st : WState) : WState :=
  (labels.zip rows).foldl (fun st lr =>
    let row := lr.2
    let file_path := row.path
    let new_cluster := lr.1
    let folder_name :=
      match cluster_names.find? (fun kv => kv.1 == new_cluster) with
      | some kv => kv.2
      | none => semanticCluster new_cluster
    -- update cluster in DB first
    let st1 := { st with db := update_cluster st.db file_path new_cluster,
                         trace := st.trace ++ [Action.clusterSet file_path new_cluster] }
    let mv := move_file st1.fs file_path folder_name root_path
    let st2 := { st1 with fs := mv.2.1, trace := st1.trace ++ mv.2.2 }
    match mv.1 with
    | some new_path =>
      if new_path ≠ file_path then
        let st3 := { st2 with db := remove_file st2.db file_path,
                              trace := st2.trace ++ [Action.removedRec file_path] }
        let st4 := { st3 with
          db := upsert_file st3.db new_path row.hash row.embedding env.now
            row.content_sample,
          trace := st3.trace ++ [Action.upserted new_path] }
        { st4 with db := update_cluster st4.db new_path new_cluster,
                   trace := st4.trace ++ [Action.clusterSet new_path new_cluster] }
      else st2
    | none => st2) st

/-- Processing of one `(extension, items)` entry of `type_groups`: cluster the
group's vectors, name each cluster, then place each file.  The
`reduce_dimensions` call of the Python code only feeds the UI payload
(`all_coords`) and is not modelled. -/
def processTypeGroup (lib : ClusterLib) (env : Env) (root_path : Path)
    (st : WState) (g : String × List (FileRecord × Vec)) : WState :=
  if g.2 = [] then st
  else
    let rows_for_type := g.2.map (fun it => it.1)
    let embeddings_for_type := g.2.map (fun it => it.2)
    let labels := perform_clustering lib env.rng embeddings_for_type
    let st1 := { st with trace := st.trace ++ [Action.clustered g.1 embeddings_for_type] }
    let named := nameClusters env labels rows_for_type ([], st1)
    placeRows env root_path named.1 labels rows_for_type named.2

/-- `Worker.recluster_and_update` (the Reclustering Pass): load all rows,
group the ones with a valid embedding by extension, then cluster, name and
place each extension group separately.  `Action.reclusterStarted` marks entry
into the pass.  The final `update_graph_signal` UI emission is not
modelled. -/
def recluster_and_update (lib : ClusterLib) (env : Env) (root_path : Path)
    (st : WState) : WState :=
  let st0 := { st with trace := st.trace ++ [Action.reclusterStarted] }
  let rows := st0.db
  if rows = [] then st0
  else
    let type_groups := buildTypeGroups rows
    if type_groups = [] then st0
    else type_groups.foldl (processTypeGroup lib env root_path) st0

/-- The kind of a watcher event.  `FileMonitor` can also emit a `moved` kind,
which falls through every branch of `Worker.process_event` unhandled. -/
inductive EventKind where
  | created | modified | deleted | movedKind
deriving DecidableEq, Repr

/-- `Worker.process_event`: the steady-state handler for one debounced watcher
event.  Events whose path's parent directory is not the monitored root are
dropped before any branch runs. -/
def process_event (lib : ClusterLib) (env : Env) (root_path : Path)
    (st : WState) (event_type : EventKind) (path : Path) : WState :=
  if path.dropLast ≠ root_path then st
  else
    match event_type with
    | .created => recluster_and_update lib env root_path (process_file env st path)
    | .modified =>
      match get_file st.db path with
      | some existing =>
        let new_hash := env.hashF path
        let st1 := { st with trace := st.trace ++ [Action.hashed path] }
        if new_hash = some existing.hash then st1
        else recluster_and_update lib env root_path (process_file env st1 path)
      | none => recluster_and_update lib env root_path (process_file env st path)
    | .deleted =>
      recluster_and_update lib env root_path
        { st with db := remove_file st.db path,
                  trace := st.trace ++ [Action.removedRec path] }
    | .movedKind => st

/-! ## Concrete instances for witnesses and counterexamples -/

/-- A concrete clustering library: UMAP is the identity, HDBSCAN labels every
point 7. -/
def idLib : ClusterLib := ⟨fun _ _ X => X, fun _ X => List.replicate X.length 7⟩

/-- A concrete environment in which every external collaborator fails and
naming is disabled. -/
def env0 : Env :=
  ⟨fun _ => none, fun _ => none, fun _ => none, fun _ => none, 0, 0, false⟩

/-! ## C3 — Naming Oracle disabled -/

/-- C3, counterexample.  The claim states that with the Naming Oracle
disabled, `generate_folder_name(samples, -1)` returns `"Miscellaneous_Files"`.
It does not: the `enabled` check precedes the `cluster_id == -1` special case,
so the disabled oracle returns `"Semantic_Cluster_-1"` for the noise
cluster. -/
theorem C3_counterexample :
    (generate_folder_name false (fun _ => some "Nice_Name") ⟨[]⟩
      ["0123456789abcdef"] (-1)).1 ≠ "Miscellaneous_Files" := by
  decide

/-- C3, amended.  When the Naming Oracle is disabled,
`generate_folder_name(samples, cluster_id)` returns
`"Semantic_Cluster_<cluster_id>"` for every `cluster_id` — including `-1` —
and for every list of samples, leaving the cache untouched and invoking no
external API. -/
theorem C3_disabled_uniform_fallback (api : List String → Option String)
    (st : NamerState) (samples : List String) (cid : Int) :
    generate_folder_name false api st samples cid =
      ("Semantic_Cluster_" ++ toString cid, st, []) := by
  simp [generate_folder_name, semanticCluster]

/-! ## C4 — small-N grouping -/

/-- C4, counterexample.  The claim states that for N = 2 the two points
receive *different* group ids.  They do not: `perform_clustering` returns
`[0] * n_samples` for every N < 3, so both points get group id 0. -/
theorem C4_counterexample :
    (perform_clustering idLib 0 [[1], [2]]).get? 0 =
      (perform_clustering idLib 0 [[1], [2]]).get? 1 ∧
    perform_clustering idLib 0 [[1], [2]] = [0, 0] := by
  constructor
  · rfl
  · rfl

/-- C4, amended.  For every input of N fingerprint vectors with 0 < N < 3 the
Grouping Engine does not fail and assigns every point the *same* trivial group
id 0 (no distinct ids, no `-1` outliers); for N = 0 it returns an empty
result. -/
theorem C4_small_n (lib : ClusterLib) (rng : Nat) (es : List Vec) :
    (es.length = 0 → perform_clustering lib rng es = []) ∧
    (0 < es.length → es.length < 3 →
      perform_clustering lib rng es = List.replicate es.length 0) := by
  constructor
  · intro h
    simp [perform_clustering, h]
  · intro h1 h2
    simp [perform_clustering, Nat.pos_iff_ne_zero.mp h1, h2]

/-- C4 witness: the amended claim evaluated at N = 2 and N = 0. -/
theorem C4_small_n_witness :
    perform_clustering idLib 0 [[5], [6]] = [0, 0] ∧
    perform_clustering idLib 0 [] = [] := by
  constructor
  · exact (C4_small_n idLib 0 [[5], [6]]).2 (by decide) (by decide)
  · exact (C4_small_n idLib 0 []).1 rfl

/-! ## C7 — grouping determinism -/

/-- C7.  The Grouping Engine is deterministic: the code pins UMAP's
`random_state` to 42 and HDBSCAN is a pure function of its input, so the
result of `perform_clustering` does not depend on the ambient randomness —
two successive calls on the same vector list return identical labels (hence
the same partition and the same set of `-1` outliers). -/
theorem C7_grouping_deterministic (lib : ClusterLib) (rng1 rng2 : Nat)
    (es : List Vec) :
    perform_clustering lib rng1 es = perform_clustering lib rng2 es := by
  simp only [perform_clustering, umapRun]

/-! ## C10 — upsert never changes cluster_id -/

/-- Point lookup commutes with a path-preserving row transformation. -/
lemma get_file_map (db : List FileRecord) (f : FileRecord → FileRecord)
    (hf : ∀ r, (f r).path = r.path) (q : Path) :
    get_file (db.map f) q = (get_file db q).map f := by
  induction db with
  | nil => rfl
  | cons a l ih =>
    unfold get_file at *
    simp only [List.map_cons, List.find?_cons]
    have hpath : ((f a).path == q) = (a.path == q) := by rw [hf]
    rw [hpath]
    cases hb : (a.path == q) with
    | true => simp
    | false => simpa using ih

/-- Point lookup distributes over record-list append. -/
lemma get_file_append (db1 db2 : List FileRecord) (q : Path) :
    get_file (db1 ++ db2) q =
      (match get_file db1 q with
       | some r => some r
       | none => get_file db2 q) := by
  induction db1 with
  | nil => rfl
  | cons a l ih =>
    unfold get_file at *
    simp only [List.cons_append, List.find?_cons]
    cases hb : (a.path == q) with
    | true => simp
    | false => simpa using ih

/-- C10.  `upsert_file` never changes the `cluster_id` field: at an existing
path it updates only hash, embedding, last_modified and content_sample while
preserving the stored `cluster_id`; at a fresh path it inserts a record with
`cluster_id = -1`; and records at every other path are untouched. -/
theorem C10_upsert_preserves_cluster (db : List FileRecord) (p : Path)
    (h : String) (e : Option Vec) (lm : Nat) (cs : Option String) :
    (∀ r, get_file db p = some r →
      get_file (upsert_file db p h e lm cs) p =
        some ⟨p, h, e, r.cluster_id, lm, cs⟩) ∧
    (get_file db p = none →
      get_file (upsert_file db p h e lm cs) p =
        some ⟨p, h, e, -1, lm, cs⟩) ∧
    (∀ q, q ≠ p → get_file (upsert_file db p h e lm cs) q = get_file db q) := by
  refine ⟨?_, ?_, ?_⟩
  · intro r hr
    have hsome : (db.find? (fun r => r.path == p)).isSome := by
      unfold get_file at hr
      rw [hr]
      rfl
    have hpath : r.path = p := by
      unfold get_file at hr
      simpa using List.find?_some hr
    have hbeq : (r.path == p) = true := by simp [hpath]
    unfold upsert_file
    rw [if_pos hsome,
      get_file_map db _ (fun r => by split <;> rfl) p, hr]
    show some (if r.path == p then FileRecord.mk r.path h e r.cluster_id lm cs else r) = _
    rw [if_pos hbeq, hpath]
  · intro hnone
    have hns : ¬ (db.find? (fun r => r.path == p)).isSome := by
      unfold get_file at hnone
      rw [hnone]
      simp
    unfold upsert_file
    rw [if_neg hns, get_file_append]
    unfold get_file at hnone ⊢
    rw [hnone]
    simp [List.find?_cons]
  · intro q hq
    by_cases hc : (db.find? (fun r => r.path == p)).isSome
    · unfold upsert_file
      rw [if_pos hc,
        get_file_map db _ (fun r => by split <;> rfl) q]
      cases hg : get_file db q with
      | none => rfl
      | some r0 =>
        have hpath : r0.path = q := by
          unfold get_file at hg
          simpa using List.find?_some hg
        have hne : ¬ ((r0.path == p) = true) := by
          simp [hpath]
          exact hq
        show some (if r0.path == p then FileRecord.mk r0.path h e r0.cluster_id lm cs else r0) = some r0
        rw [if_neg hne]
    · unfold upsert_file
      rw [if_neg hc, get_file_append]
      cases hg : get_file db q with
      | some r0 => simp
      | none =>
        have : (p == q) = false := by
          simp
          exact fun hpq => hq hpq.symm
        simp [get_file, List.find?_cons, this]

/-- C10 witness: the three parts of the theorem evaluated on a concrete
one-record store. -/
theorem C10_upsert_witness :
    get_file (upsert_file [⟨["r", "a.txt"], "h1", some [1, 2, 3], 5, 0, some "s1"⟩]
        ["r", "a.txt"] "h2" (some [9]) 7 (some "s2")) ["r", "a.txt"] =
      some ⟨["r", "a.txt"], "h2", some [9], 5, 7, some "s2"⟩ ∧
    get_file (upsert_file [⟨["r", "a.txt"], "h1", some [1, 2, 3], 5, 0, some "s1"⟩]
        ["r", "b.txt"] "h3" none 8 none) ["r", "b.txt"] =
      some ⟨["r", "b.txt"], "h3", none, -1, 8, none⟩ ∧
    get_file (upsert_file [⟨["r", "a.txt"], "h1", some [1, 2, 3], 5, 0, some "s1"⟩]
        ["r", "b.txt"] "h3" none 8 none) ["r", "a.txt"] =
      get_file [⟨["r", "a.txt"], "h1", some [1, 2, 3], 5, 0, some "s1"⟩] ["r", "a.txt"] := by
  refine ⟨?_, ?_, ?_⟩
  · exact (C10_upsert_preserves_cluster
      [⟨["r", "a.txt"], "h1", some [1, 2, 3], 5, 0, some "s1"⟩]
      ["r", "a.txt"] "h2" (some [9]) 7 (some "s2")).1
      ⟨["r", "a.txt"], "h1", some [1, 2, 3], 5, 0, some "s1"⟩ rfl
  · exact (C10_upsert_preserves_cluster
      [⟨["r", "a.txt"], "h1", some [1, 2, 3], 5, 0, some "s1"⟩]
      ["r", "b.txt"] "h3" none 8 none).2.1 rfl
  · exact (C10_upsert_preserves_cluster
      [⟨["r", "a.txt"], "h1", some [1, 2, 3], 5, 0, some "s1"⟩]
      ["r", "b.txt"] "h3" none 8 none).2.2 ["r", "a.txt"] (by decide)

/-! ## C9 — events outside the root are dropped -/

/-- C9.  For every event — created, modified, deleted, or even the unhandled
moved kind — whose path's parent directory is not exactly the monitored root,
`process_event` returns the state unchanged: no Processing Step, no Record
Store change, no Reclustering Pass, no file move, and no trace action at
all. -/
theorem C9_subfolder_event_noop (lib : ClusterLib) (env : Env) (root : Path)
    (st : WState) (ek : EventKind) (p : Path) (h : p.dropLast ≠ root) :
    process_event lib env root st ek p = st := by
  unfold process_event
  rw [if_pos h]

/-- C9 witness: a created event for a file inside an organized subfolder of
the root leaves a concrete state untouched. -/
theorem C9_subfolder_event_noop_witness :
    process_event idLib env0 ["r"]
      ⟨[], ⟨[], []⟩, ⟨[]⟩, []⟩ .created ["r", "Lbl", "Text_Files", "a.txt"] =
      ⟨[], ⟨[], []⟩, ⟨[]⟩, []⟩ := by
  exact C9_subfolder_event_noop idLib env0 ["r"] ⟨[], ⟨[], []⟩, ⟨[]⟩, []⟩
    .created ["r", "Lbl", "Text_Files", "a.txt"] (by decide)

/-! ## C6 — no-op placement -/

/-- C6.  No-op placement: on a well-formed filesystem, moving a file that is
already at its canonical target `root/<label>/<type bucket>/<filename>`
returns the unchanged path, leaves the filesystem untouched, and performs no
filesystem action (no move, no delete, no directory creation). -/
theorem C6_noop_placement (fs : FileSys) (f : Path) (folder : String)
    (root : Path) (hwf : fsWF fs = true) (hmem : fs.files.contains f = true)
    (heq : f = root ++ [folder, typeFolderName (extOf f), f.getLastD ""]) :
    move_file fs f folder root = (some f, fs, []) := by
  have hmemP : f ∈ fs.files := by simpa using hmem
  have hdirMem : fs.dirs.contains f.dropLast = true := by
    have hall := List.all_eq_true.mp hwf
    simpa using hall f hmemP
  have hdrop : f.dropLast = root ++ [folder, typeFolderName (extOf f)] := by
    conv_lhs => rw [heq]
    simp
  rw [hdrop] at hdirMem
  have hdirP : (root ++ [folder, typeFolderName (extOf f)]) ∈ fs.dirs := by
    simpa using hdirMem
  have hdest : f = root ++ [folder, typeFolderName (extOf f), (f.getLast?).getD ""] := by
    rw [← List.getLastD_eq_getLast?]
    exact heq
  simp [move_file, hmemP, hdirP, ← hdest]

/-- C6 witness: a concrete file already sitting at its canonical target is
returned unchanged with no filesystem write. -/
theorem C6_noop_placement_witness :
    move_file
      ⟨[["r", "Lbl", "Text_Files", "a.txt"]],
       [[], ["r"], ["r", "Lbl"], ["r", "Lbl", "Text_Files"]]⟩
      ["r", "Lbl", "Text_Files", "a.txt"] "Lbl" ["r"] =
    (some ["r", "Lbl", "Text_Files", "a.txt"],
      ⟨[["r", "Lbl", "Text_Files", "a.txt"]],
       [[], ["r"], ["r", "Lbl"], ["r", "Lbl", "Text_Files"]]⟩, []) := by
  exact C6_noop_placement
    ⟨[["r", "Lbl", "Text_Files", "a.txt"]],
     [[], ["r"], ["r", "Lbl"], ["r", "Lbl", "Text_Files"]]⟩
    ["r", "Lbl", "Text_Files", "a.txt"] "Lbl" ["r"]
    (by decide) (by decide) (by decide)

/-! ## C5 — idempotent Processing Step -/

/-- C5.  Idempotence of the Processing Step: when the current content hash of
an existing file equals the hash stored in its Record Store entry,
`process_file` computes the hash and then aborts — the store is unchanged,
nothing is upserted, and neither the text-extraction / fingerprint oracles nor
the Naming Oracle are invoked (the whole trace extension is the single hash
computation). -/
theorem C5_processing_idempotent (env : Env) (st : WState) (p : Path)
    (r : FileRecord) (hsh : String)
    (hmem : st.fs.files.contains p = true)
    (hhash : env.hashF p = some hsh)
    (hget : get_file st.db p = some r)
    (hrh : r.hash = hsh) :
    process_file env st p = { st with trace := st.trace ++ [Action.hashed p] } := by
  have hmemP : p ∈ st.fs.files := by simpa using hmem
  simp [process_file, hmemP, hhash, hget, hrh]

/-- C5 witness: reprocessing a concrete unchanged file leaves the store
untouched and records only the hash computation. -/
theorem C5_processing_idempotent_witness :
    process_file
      ⟨fun _ => some "h", fun _ => none, fun _ => none, fun _ => none, 0, 0, false⟩
      ⟨[⟨["r", "a.txt"], "h", some [1, 2, 3], -1, 0, some "s"⟩],
       ⟨[["r", "a.txt"]], [[], ["r"]]⟩, ⟨[]⟩, []⟩
      ["r", "a.txt"] =
    ⟨[⟨["r", "a.txt"], "h", some [1, 2, 3], -1, 0, some "s"⟩],
     ⟨[["r", "a.txt"]], [[], ["r"]]⟩, ⟨[]⟩, [Action.hashed ["r", "a.txt"]]⟩ := by
  exact C5_processing_idempotent
    ⟨fun _ => some "h", fun _ => none, fun _ => none, fun _ => none, 0, 0, false⟩
    ⟨[⟨["r", "a.txt"], "h", some [1, 2, 3], -1, 0, some "s"⟩],
     ⟨[["r", "a.txt"]], [[], ["r"]]⟩, ⟨[]⟩, []⟩
    ["r", "a.txt"]
    ⟨["r", "a.txt"], "h", some [1, 2, 3], -1, 0, some "s"⟩ "h"
    rfl rfl rfl rfl

/-! ## C1 — loop-freedom -/

/-- Every successful `move_file` result is the canonical target path
`root / folder / type_folder / filename` — three components below the
root. -/
lemma move_file_some_dst (fs : FileSys) (f : Path) (folder : String)
    (root : Path) (dst : Path) (fs2 : FileSys) (acts : List Action)
    (h : move_file fs f folder root = (some dst, fs2, acts)) :
    dst = root ++ [folder, typeFolderName (extOf f), f.getLastD ""] := by
  unfold move_file at h
  by_cases hmem : fs.files.contains f = true
  · rw [hmem] at h
    simp only [Bool.not_true, Bool.false_eq_true, if_false] at h
    split at h
    · rename_i hcond
      rw [Prod.mk.injEq] at h
      have hdst : f = dst := by simpa using h.1
      rw [← hdst]
      simpa using hcond
    · rw [Prod.mk.injEq] at h
      have hdst := h.1
      simp only [Option.some.injEq] at hdst
      rw [← hdst]
      simp [List.getLastD_eq_getLast?]
  · have hnm : f ∉ fs.files := by simpa using hmem
    simp [hnm] at h

/-- C1.  Loop-freedom: a `created` event at the destination path of any move
performed by the Placement Engine (a path already present in the Record
Store, sitting inside an organized subfolder) causes the Orchestrator's event
handler to do nothing at all — the state, the Record Store and the trace are
unchanged, so the file's bytes are never re-fingerprinted. -/
theorem C1_loop_freedom (lib : ClusterLib) (env : Env) (root : Path)
    (st : WState) (fs : FileSys) (src : Path) (folder : String) (dst : Path)
    (fs2 : FileSys) (acts : List Action)
    (hmv : move_file fs src folder root = (some dst, fs2, acts))
    (hdb : (get_file st.db dst).isSome = true) :
    process_event lib env root st .created dst = st := by
  have hdst := move_file_some_dst fs src folder root dst fs2 acts hmv
  have hsplit : root ++ [folder, typeFolderName (extOf src), src.getLastD ""] =
      (root ++ [folder, typeFolderName (extOf src)]) ++ [src.getLastD ""] := by
    simp
  have hne : dst.dropLast ≠ root := by
    rw [hdst, hsplit, List.dropLast_concat]
    intro hcontr
    have hlen := congrArg List.length hcontr
    simp only [List.length_append, List.length_cons, List.length_nil] at hlen
    omega
  unfold process_event
  rw [if_pos hne]

/-- C1 witness: the concrete move of `r/a.txt` to `r/Lbl/Text_Files/a.txt`
(destination recorded in the store) followed by a `created` event at the
destination leaves the state untouched. -/
theorem C1_loop_freedom_witness :
    process_event idLib env0 ["r"]
      ⟨[⟨["r", "Lbl", "Text_Files", "a.txt"], "h", some [1, 2, 3], 0, 0, some "s"⟩],
       ⟨[["r", "a.txt"]], [[], ["r"]]⟩, ⟨[]⟩, []⟩
      .created ["r", "Lbl", "Text_Files", "a.txt"] =
    ⟨[⟨["r", "Lbl", "Text_Files", "a.txt"], "h", some [1, 2, 3], 0, 0, some "s"⟩],
     ⟨[["r", "a.txt"]], [[], ["r"]]⟩, ⟨[]⟩, []⟩ := by
  exact C1_loop_freedom idLib env0 ["r"]
    ⟨[⟨["r", "Lbl", "Text_Files", "a.txt"], "h", some [1, 2, 3], 0, 0, some "s"⟩],
     ⟨[["r", "a.txt"]], [[], ["r"]]⟩, ⟨[]⟩, []⟩
    ⟨[["r", "a.txt"]], [[], ["r"]]⟩ ["r", "a.txt"] "Lbl"
    ["r", "Lbl", "Text_Files", "a.txt"]
    ⟨[["r", "Lbl", "Text_Files", "a.txt"]],
     [[], ["r"], ["r", "Lbl"], ["r", "Lbl", "Text_Files"]]⟩
    [Action.dirCreated ["r", "Lbl", "Text_Files"],
     Action.moved ["r", "a.txt"] ["r", "Lbl", "Text_Files", "a.txt"]]
    (by decide) (by decide)

/-! ## C2 — deletion policy -/

/-- Folding a trace-monotone step preserves trace membership. -/
lemma mem_trace_foldl {α : Type _} (f : WState → α → WState)
    (hf : ∀ st x a, a ∈ st.trace → a ∈ (f st x).trace) (l : List α) :
    ∀ (st : WState) (a : Action), a ∈ st.trace → a ∈ (l.foldl f st).trace := by
  induction l with
  | nil => intro st a ha; simpa using ha
  | cons x l ih => intro st a ha; exact ih (f st x) a (hf st x a ha)

/-- Pair-accumulator version of `mem_trace_foldl`. -/
lemma mem_trace_foldl_pair {α β : Type _} (f : β × WState → α → β × WState)
    (hf : ∀ acc x a, a ∈ (acc.2).trace → a ∈ ((f acc x).2).trace) (l : List α) :
    ∀ (acc : β × WState) (a : Action), a ∈ (acc.2).trace →
      a ∈ ((l.foldl f acc).2).trace := by
  induction l with
  | nil => intro acc a ha; simpa using ha
  | cons x l ih => intro acc a ha; exact ih (f acc x) a (hf acc x a ha)

/-- `placeRows` only appends to the trace. -/
lemma mem_trace_placeRows (env : Env) (root : Path)
    (cn : List (Int × String)) (labels : List Int) (rows : List FileRecord)
    (st : WState) (a : Action) (ha : a ∈ st.trace) :
    a ∈ (placeRows env root cn labels rows st).trace := by
  unfold placeRows
  refine mem_trace_foldl _ ?_ _ st a ha
  intro st lr a ha
  dsimp only
  split
  · split
    · simp [ha]
    · simp [ha]
  · simp [ha]

/-- `nameClusters` only appends to the trace. -/
lemma mem_trace_nameClusters (env : Env) (labels : List Int)
    (rows : List FileRecord) (acc : List (Int × String) × WState) (a : Action)
    (ha : a ∈ (acc.2).trace) :
    a ∈ ((nameClusters env labels rows acc).2).trace := by
  unfold nameClusters
  refine mem_trace_foldl_pair _ ?_ _ acc a ha
  intro acc cid a ha
  dsimp only
  simp [ha]

/-- `processTypeGroup` only appends to the trace. -/
lemma mem_trace_processTypeGroup (lib : ClusterLib) (env : Env) (root : Path)
    (st : WState) (g : String × List (FileRecord × Vec)) (a : Action)
    (ha : a ∈ st.trace) :
    a ∈ (processTypeGroup lib env root st g).trace := by
  unfold processTypeGroup
  by_cases hg : g.2 = []
  · rw [if_pos hg]
    exact ha
  · rw [if_neg hg]
    apply mem_trace_placeRows
    apply mem_trace_nameClusters
    exact List.mem_append_left _ ha

/-- Every Reclustering Pass records its start marker in the trace. -/
lemma recluster_started_mem (lib : ClusterLib) (env : Env) (root : Path)
    (st : WState) :
    Action.reclusterStarted ∈ (recluster_and_update lib env root st).trace := by
  unfold recluster_and_update
  have hmem : Action.reclusterStarted ∈ st.trace ++ [Action.reclusterStarted] := by
    simp
  by_cases h1 : st.db = []
  · simpa [h1] using hmem
  · rw [if_neg h1]
    by_cases h2 : buildTypeGroups st.db = []
    · simpa [h2] using hmem
    · rw [if_neg h2]
      exact mem_trace_foldl _ (fun st g a ha =>
        mem_trace_processTypeGroup lib env root st g a ha) _ _ _ hmem

/-- The record at the removed path is gone. -/
lemma get_file_remove_self (db : List FileRecord) (p : Path) :
    get_file (remove_file db p) p = none := by
  induction db with
  | nil => rfl
  | cons a l ih =>
    unfold get_file remove_file at *
    simp only [List.filter_cons]
    cases hb : (a.path == p) with
    | true => simpa using ih
    | false => simpa [List.find?_cons, hb] using ih

/-- C2, counterexample.  The claim states that a `deleted` event does not
trigger a Reclustering Pass.  It does: `Worker.process_event` calls
`recluster_and_update` right after removing the record, as witnessed by the
`reclusterStarted` marker in the trace of this concrete run. -/
theorem C2_counterexample :
    Action.reclusterStarted ∈
      (process_event idLib env0 ["r"]
        ⟨[⟨["r", "a.txt"], "h", some [1, 2, 3], -1, 0, some "s"⟩],
         ⟨[["r", "a.txt"]], [[], ["r"]]⟩, ⟨[]⟩, []⟩
        .deleted ["r", "a.txt"]).trace := by
  decide

/-- C2, amended.  For every `deleted` event at a root-level path, the
Orchestrator removes the Record Store entry for that path and then *does*
trigger a Reclustering Pass (the code adopts the spec's alternate
recluster-after-delete policy, not the stated "no recluster on delete"
default): the handler's result is exactly a Reclustering Pass run on the
state with the record removed, the removed path is no longer in the store the
pass starts from, and the pass's start marker is in the resulting trace. -/
theorem C2_delete_removes_and_reclusters (lib : ClusterLib) (env : Env)
    (root : Path) (st : WState) (p : Path) (hroot : p.dropLast = root) :
    process_event lib env root st .deleted p =
      recluster_and_update lib env root
        { st with db := remove_file st.db p,
                  trace := st.trace ++ [Action.removedRec p] } ∧
    get_file (remove_file st.db p) p = none ∧
    Action.reclusterStarted ∈ (process_event lib env root st .deleted p).trace := by
  have heq : process_event lib env root st .deleted p =
      recluster_and_update lib env root
        { st with db := remove_file st.db p,
                  trace := st.trace ++ [Action.removedRec p] } := by
    unfold process_event
    rw [if_neg (fun hc => hc hroot)]
  refine ⟨heq, get_file_remove_self st.db p, ?_⟩
  rw [heq]
  exact recluster_started_mem lib env root _

/-- C2 witness: the amended claim evaluated on a concrete one-record store. -/
theorem C2_delete_removes_and_reclusters_witness :
    process_event idLib env0 ["r"]
      ⟨[⟨["r", "b.txt"], "h", some [1, 2, 3], -1, 0, some "s"⟩],
       ⟨[["r", "b.txt"]], [[], ["r"]]⟩, ⟨[]⟩, []⟩
      .deleted ["r", "b.txt"] =
      recluster_and_update idLib env0 ["r"]
        { db := remove_file [⟨["r", "b.txt"], "h", some [1, 2, 3], -1, 0, some "s"⟩]
            ["r", "b.txt"],
          fs := ⟨[["r", "b.txt"]], [[], ["r"]]⟩, namer := ⟨[]⟩,
          trace := [] ++ [Action.removedRec ["r", "b.txt"]] } ∧
    get_file (remove_file [⟨["r", "b.txt"], "h", some [1, 2, 3], -1, 0, some "s"⟩]
      ["r", "b.txt"]) ["r", "b.txt"] = none ∧
    Action.reclusterStarted ∈
      (process_event idLib env0 ["r"]
        ⟨[⟨["r", "b.txt"], "h", some [1, 2, 3], -1, 0, some "s"⟩],
         ⟨[["r", "b.txt"]], [[], ["r"]]⟩, ⟨[]⟩, []⟩
        .deleted ["r", "b.txt"]).trace := by
  exact C2_delete_removes_and_reclusters idLib env0 ["r"]
    ⟨[⟨["r", "b.txt"], "h", some [1, 2, 3], -1, 0, some "s"⟩],
     ⟨[["r", "b.txt"]], [[], ["r"]]⟩, ⟨[]⟩, []⟩
    ["r", "b.txt"] rfl

/-! ## C8 — one Grouping Engine invocation per extension group -/

/-- The fingerprint vector of a record, when its stored blob passes the
validity test `row[3] and len(row[3]) > 2`. -/
def fingerprintVecOf (r : FileRecord) : Option Vec :=
  match r.embedding with
  | some v => if 4 * v.length > 2 then some v else none
  | none => none

/-- The fingerprinted records of extension `e`, paired with their vectors, in
stored order. -/
def itemsForExt (db : List FileRecord) (e : String) : List (FileRecord × Vec) :=
  db.filterMap (fun r =>
    match fingerprintVecOf r with
    | some v => if extOf r.path = e then some (r, v) else none
    | none => none)

/-- The extensions of the fingerprinted records, in stored order, with
multiplicity. -/
def extsList (db : List FileRecord) : List String :=
  db.filterMap (fun r =>
    match fingerprintVecOf r with
    | some _ => some (extOf r.path)
    | none => none)

/-- The distinct extensions of the fingerprinted records, in first-occurrence
order. -/
def distinctExts (db : List FileRecord) : List String :=
  (extsList db).foldl (fun acc x => if acc.contains x then acc else acc ++ [x]) []

/-- Unfolding `buildTypeGroups` over a snoc. -/
lemma buildTypeGroups_concat (db : List FileRecord) (r : FileRecord) :
    buildTypeGroups (db ++ [r]) =
      (match r.embedding with
       | some v =>
         if 4 * v.length > 2 then
           addToGroups (buildTypeGroups db) (extOf r.path) (r, v)
         else buildTypeGroups db
       | none => buildTypeGroups db) := by
  unfold buildTypeGroups
  rw [List.foldl_append, List.foldl_cons, List.foldl_nil]

/-- Unfolding `extsList` over a snoc. -/
lemma extsList_concat (db : List FileRecord) (r : FileRecord) :
    extsList (db ++ [r]) =
      extsList db ++
        (match fingerprintVecOf r with
         | some _ => [extOf r.path]
         | none => []) := by
  unfold extsList
  rw [List.filterMap_append]
  rcases h : fingerprintVecOf r with _ | v <;> simp [h]

/-- Unfolding `itemsForExt` over a snoc. -/
lemma itemsForExt_concat (db : List FileRecord) (r : FileRecord) (e : String) :
    itemsForExt (db ++ [r]) e =
      itemsForExt db e ++
        (match fingerprintVecOf r with
         | some v => if extOf r.path = e then [(r, v)] else []
         | none => []) := by
  unfold itemsForExt
  rw [List.filterMap_append]
  rcases h : fingerprintVecOf r with _ | v
  · simp [h]
  · by_cases he : extOf r.path = e <;> simp [h, he]

/-- Unfolding `distinctExts` over a snoc. -/
lemma distinctExts_concat (db : List FileRecord) (r : FileRecord) :
    distinctExts (db ++ [r]) =
      (match fingerprintVecOf r with
       | some _ =>
         if (distinctExts db).contains (extOf r.path) then distinctExts db
         else distinctExts db ++ [extOf r.path]
       | none => distinctExts db) := by
  unfold distinctExts
  rw [extsList_concat, List.foldl_append]
  rcases h : fingerprintVecOf r with _ | v <;> simp [h]

/-- Membership in the dedup fold. -/
lemma mem_dedup_foldl (l : List String) : ∀ (acc : List String) (x : String),
    x ∈ l.foldl (fun acc y => if acc.contains y then acc else acc ++ [y]) acc ↔
      x ∈ acc ∨ x ∈ l := by
  induction l with
  | nil => intro acc x; simp
  | cons y l ih =>
    intro acc x
    rw [List.foldl_cons, ih]
    by_cases hy : acc.contains y
    · rw [if_pos hy]
      have hmy : y ∈ acc := by simpa using hy
      constructor
      · rintro (h | h)
        · exact Or.inl h
        · exact Or.inr (List.mem_cons_of_mem _ h)
      · rintro (h | h)
        · exact Or.inl h
        · rcases List.mem_cons.mp h with rfl | h
          · exact Or.inl hmy
          · exact Or.inr h
    · rw [if_neg hy]
      simp only [List.mem_append, List.mem_cons, List.mem_singleton]
      tauto

/-- An extension is distinct iff it occurs at all. -/
lemma mem_distinctExts (db : List FileRecord) (x : String) :
    x ∈ distinctExts db ↔ x ∈ extsList db := by
  unfold distinctExts
  rw [mem_dedup_foldl]
  simp

/-- The item list of an extension is empty iff the extension never occurs. -/
lemma itemsForExt_eq_nil_iff (db : List FileRecord) (e : String) :
    itemsForExt db e = [] ↔ e ∉ extsList db := by
  induction db with
  | nil => simp [itemsForExt, extsList]
  | cons r l ih =>
    unfold itemsForExt extsList at *
    rw [List.filterMap_cons, List.filterMap_cons]
    rcases h : fingerprintVecOf r with _ | v
    · simpa [h] using ih
    · simp only [h]
      by_cases he : extOf r.path = e
      · simp [he]
      · rw [if_neg he]
        rw [ih]
        constructor
        · intro hn hc
          rcases List.mem_cons.mp hc with heq | hh
          · exact he heq.symm
          · exact hn hh
        · intro hn hh
          exact hn (List.mem_cons_of_mem _ hh)

/-- `find?` by key over a keyed map. -/
lemma find_map_key {α : Type _} (l : List String) (F : String → α) (x : String) :
    (l.map (fun e => (e, F e))).find? (fun g => g.1 == x) =
      if x ∈ l then some (x, F x) else none := by
  induction l with
  | nil => simp
  | cons e l ih =>
    rw [List.map_cons]
    by_cases he : e = x
    · subst he
      rw [List.find?_cons_of_pos _ (by simp)]
      simp
    · rw [List.find?_cons_of_neg _ (by simp [he]), ih]
      simp [List.mem_cons, Ne.symm he]

/-- The `type_groups` dictionary built by the Reclustering Pass is exactly
one group per distinct extension (in first-occurrence order), carrying that
extension's fingerprinted records in stored order. -/
lemma buildTypeGroups_eq (db : List FileRecord) :
    buildTypeGroups db = (distinctExts db).map (fun e => (e, itemsForExt db e)) := by
  induction db using List.reverseRecOn with
  | nil => rfl
  | append_singleton db r ih =>
    rcases hemb : r.embedding with _ | v
    · have hfv : fingerprintVecOf r = none := by simp [fingerprintVecOf, hemb]
      simp only [buildTypeGroups_concat, distinctExts_concat, hemb, hfv, ih]
      apply List.map_congr_left
      intro e he
      simp only [itemsForExt_concat, hfv]
      simp
    · by_cases hlen : 4 * v.length > 2
      · have hfv : fingerprintVecOf r = some v := by
          simp [fingerprintVecOf, hemb, hlen]
        simp only [buildTypeGroups_concat, distinctExts_concat, hemb, hfv, ih,
          hlen, if_true]
        by_cases hc : (distinctExts db).contains (extOf r.path)
        · rw [if_pos hc]
          have hmem : extOf r.path ∈ distinctExts db := by simpa using hc
          unfold addToGroups
          rw [find_map_key, if_pos hmem]
          rw [if_pos (by rfl : (some (extOf r.path,
            itemsForExt db (extOf r.path))).isSome = true)]
          rw [List.map_map]
          apply List.map_congr_left
          intro e he
          simp only [Function.comp_apply]
          by_cases hee : e = extOf r.path
          · subst hee
            rw [if_pos (by simp)]
            simp only [itemsForExt_concat, hfv, if_pos rfl]
            simp
          · rw [if_neg (by simp [hee])]
            have hne : ¬ extOf r.path = e := fun heq => hee heq.symm
            simp only [itemsForExt_concat, hfv, if_neg hne]
            simp
        · rw [if_neg hc]
          have hnm : extOf r.path ∉ distinctExts db := by simpa using hc
          unfold addToGroups
          rw [find_map_key, if_neg hnm]
          rw [if_neg (by simp : ¬ ((none : Option (String × List (FileRecord × Vec))).isSome = true))]
          rw [List.map_append]
          congr 1
          · apply List.map_congr_left
            intro e he
            have hne : ¬ extOf r.path = e := fun heq => hnm (heq ▸ he)
            simp only [itemsForExt_concat, hfv, if_neg hne]
            simp
          · rw [List.map_singleton]
            have hnil : itemsForExt db (extOf r.path) = [] :=
              (itemsForExt_eq_nil_iff _ _).mpr
                (fun hx => hnm ((mem_distinctExts _ _).mpr hx))
            simp only [itemsForExt_concat, hfv, if_pos rfl, hnil]
            simp
      · have hfv : fingerprintVecOf r = none := by
          simp [fingerprintVecOf, hemb, hlen]
        simp only [buildTypeGroups_concat, distinctExts_concat, hemb, hfv, ih,
          hlen, if_false]
        apply List.map_congr_left
        intro e he
        simp only [itemsForExt_concat, hfv]
        simp

/-- Is an action a Grouping Engine invocation? -/
def isClustered : Action → Bool
  | .clustered _ _ => true
  | _ => false

/-- The Naming Oracle adapter never emits a clustering action. -/
lemma gfn_no_cluster (en : Bool) (api : List String → Option String)
    (ns : NamerState) (ts : List String) (cid : Int) :
    ((generate_folder_name en api ns ts cid).2.2).filter isClustered = [] := by
  unfold generate_folder_name
  dsimp only
  repeat' split
  all_goals rfl

/-- The Placement Engine never emits a clustering action. -/
lemma move_no_cluster (fs : FileSys) (f : Path) (folder : String)
    (root : Path) : ((move_file fs f folder root).2.2).filter isClustered = [] := by
  unfold move_file
  dsimp only
  repeat' split
  all_goals rfl

/-- Folding a step that preserves the clustering-action filter preserves
it. -/
lemma filter_trace_foldl {α : Type _} (f : WState → α → WState)
    (hf : ∀ st x, ((f st x).trace).filter isClustered =
      (st.trace).filter isClustered) (l : List α) :
    ∀ st : WState, (((l.foldl f st)).trace).filter isClustered =
      (st.trace).filter isClustered := by
  induction l with
  | nil => intro st; rfl
  | cons x l ih => intro st; rw [List.foldl_cons, ih, hf]

/-- Pair-accumulator version of `filter_trace_foldl`. -/
lemma filter_trace_foldl_pair {α β : Type _} (f : β × WState → α → β × WState)
    (hf : ∀ acc x, (((f acc x).2).trace).filter isClustered =
      ((acc.2).trace).filter isClustered) (l : List α) :
    ∀ acc : β × WState, (((l.foldl f acc).2).trace).filter isClustered =
      ((acc.2).trace).filter isClustered := by
  induction l with
  | nil => intro acc; rfl
  | cons x l ih => intro acc; rw [List.foldl_cons, ih, hf]

/-- The naming loop adds no clustering action to the trace. -/
lemma filter_trace_nameClusters (env : Env) (labels : List Int)
    (rows : List FileRecord) (acc : List (Int × String) × WState) :
    (((nameClusters env labels rows acc).2).trace).filter isClustered =
      ((acc.2).trace).filter isClustered := by
  unfold nameClusters
  refine filter_trace_foldl_pair _ ?_ _ acc
  intro acc cid
  dsimp only
  rw [List.filter_append, gfn_no_cluster]
  simp

/-- The placement loop adds no clustering action to the trace. -/
lemma filter_trace_placeRows (env : Env) (root : Path)
    (cn : List (Int × String)) (labels : List Int) (rows : List FileRecord)
    (st : WState) :
    ((placeRows env root cn labels rows st).trace).filter isClustered =
      (st.trace).filter isClustered := by
  unfold placeRows
  refine filter_trace_foldl _ ?_ _ st
  intro st lr
  dsimp only
  split
  · split
    · simp [List.filter_append, move_no_cluster, isClustered]
    · simp [List.filter_append, move_no_cluster, isClustered]
  · simp [List.filter_append, move_no_cluster, isClustered]

/-- One type group contributes exactly one Grouping Engine invocation,
carrying the group's vectors. -/
lemma filter_trace_processTypeGroup (lib : ClusterLib) (env : Env)
    (root : Path) (st : WState) (g : String × List (FileRecord × Vec))
    (hg : g.2 ≠ []) :
    ((processTypeGroup lib env root st g).trace).filter isClustered =
      (st.trace).filter isClustered ++
        [Action.clustered g.1 (g.2.map (fun it => it.2))] := by
  unfold processTypeGroup
  rw [if_neg hg, filter_trace_placeRows, filter_trace_nameClusters]
  simp [List.filter_append, isClustered]

/-- The fold over all type groups invokes the Grouping Engine once per group,
in order. -/
lemma filter_trace_fold_groups (lib : ClusterLib) (env : Env) (root : Path) :
    ∀ (gs : List (String × List (FileRecord × Vec))) (st : WState),
      (∀ g ∈ gs, g.2 ≠ []) →
      ((gs.foldl (processTypeGroup lib env root) st).trace).filter isClustered =
        (st.trace).filter isClustered ++
          gs.map (fun g => Action.clustered g.1 (g.2.map (fun it => it.2))) := by
  intro gs
  induction gs with
  | nil => intro st h; simp
  | cons g gs ih =>
    intro st h
    rw [List.foldl_cons, ih _ (fun g hg => h g (List.mem_cons_of_mem _ hg)),
      filter_trace_processTypeGroup lib env root st g (h g (List.mem_cons_self _ _))]
    simp

/-- A distinct extension has a nonempty item list. -/
lemma itemsForExt_ne_nil_of_mem (db : List FileRecord) (e : String)
    (he : e ∈ distinctExts db) : itemsForExt db e ≠ [] :=
  fun hnil => ((itemsForExt_eq_nil_iff db e).mp hnil)
    ((mem_distinctExts db e).mp he)

/-- C8.  Every Reclustering Pass partitions the stored fingerprinted records
by file extension and invokes the Grouping Engine exactly once per extension
group, in first-occurrence order, passing exactly that extension's fingerprint
vectors in stored order — never all records in a single call (for two or more
extensions the clustering-invocation list has one entry per extension). -/
theorem C8_per_extension_clustering (lib : ClusterLib) (env : Env)
    (root : Path) (st : WState) :
    ((recluster_and_update lib env root st).trace).filter isClustered =
      ((st.trace).filter isClustered) ++
        (distinctExts st.db).map
          (fun e => Action.clustered e ((itemsForExt st.db e).map (fun it => it.2))) := by
  unfold recluster_and_update
  by_cases h1 : st.db = []
  · rw [if_pos (by simpa using h1)]
    simp [h1, List.filter_append, isClustered, distinctExts, extsList]
  · rw [if_neg (by simpa using h1)]
    by_cases h2 : buildTypeGroups st.db = []
    · have hcanon := buildTypeGroups_eq st.db
      rw [h2] at hcanon
      have hd : distinctExts st.db = [] := by
        rcases hde : distinctExts st.db with _ | ⟨x, xs⟩
        · rfl
        · rw [hde] at hcanon
          simp at hcanon
      rw [if_pos (by simpa using h2)]
      simp [hd, List.filter_append, isClustered]
    · have hcanon := buildTypeGroups_eq st.db
      have hne : ∀ g ∈ buildTypeGroups st.db, g.2 ≠ [] := by
        intro g hg
        rw [hcanon] at hg
        obtain ⟨e, he, rfl⟩ := List.mem_map.mp hg
        exact itemsForExt_ne_nil_of_mem st.db e he
      rw [if_neg (by simpa using h2)]
      rw [filter_trace_fold_groups lib env root (buildTypeGroups st.db) _ hne]
      rw [hcanon]
      simp [List.filter_append, isClustered, List.map_map, Function.comp]

end SEFS
